import Mathlib

/-!
Verification of `derive-error-chain` (`src/derive-error-chain/src/lib.rs`), a
compile-time code generator that expands an annotated Rust enum into an
error-hierarchy: an error wrapper struct, inherent methods and trait impls on
the kind enum, `From` conversions, a result alias, and backtrace extraction
machinery.

The embedding has two layers:

1. The expansion engine itself (variant classification `impl From<syn::Variant>
   for Link`, top-level attribute parsing `TopLevelProperties::from`, the
   format-string analyzers `get_parameter_names` / `get_parameter_positions` /
   `ensure_no_parameters`, and the per-link emitter decision functions
   `error_kind_from_impl`, `error_from_impl`,
   `chained_error_extract_backtrace_case`, `error_kind_description`).
   Rust `panic!` (which aborts the whole macro expansion) is modelled as
   `Except.error` carrying the panic message.  `syn`'s parsers for
   identifiers, types and expressions are external collaborators and are
   passed in as parameters of type `String → Except String _`.
   Attribute payloads are modelled at the `interpret_meta` level
   (`syn::Meta::List` of nested metas); the `proc_macro2` token-tree fallback
   branch accepts the same grammar over raw tokens.

2. A semantic model of the *generated* code, instantiated at one
   representative enum with one variant of each link kind
   (`Msg` / chainable / foreign / custom), over abstract types `SK` (the
   sibling hierarchy's kind), `E` (the dynamic `::std::error::Error` universe,
   which also hosts the foreign error values and boxed causes), `F` (the
   custom variant's field payload) and `B` (`Arc<Backtrace>` handles, where
   equality of the abstract token models pointer identity).
-/

/-- A `syn::Path`: leading-colon flag (`path.global()`) plus segment idents. -/
structure SynPath where
  global : Bool
  segments : List String
deriving DecidableEq, Repr

/-- The subset of `syn::Type` the engine inspects: path types are examined
structurally, every other type is opaque to the engine. -/
inductive SynType where
  | path (p : SynPath)
  | other (printed : String)
deriving DecidableEq, Repr

/-- `syn::Fields` of a variant: named (struct variant), unnamed (tuple
variant), or unit. -/
inductive FieldsEmb where
  | named (fields : List (String × SynType))
  | unnamed (tys : List SynType)
  | unit
deriving DecidableEq, Repr

/-- `LinkType` from the source: the classification of a variant. -/
inductive LinkTypeEmb where
  | msg
  | chainable (errorTy kindTy : SynType)
  | foreign (ty : SynType)
  | custom
deriving DecidableEq, Repr

/-- `CustomFormatter` from the source: a description/display override is
either a parsed `const("literal")` format string or a free-form expression
(expressions are carried as their printed text; their meaning never matters to
the engine itself). -/
inductive FormatterEmb where
  | formatString (fs : String)
  | expr (e : String)
deriving DecidableEq, Repr

/-- `Link` from the source: one classified variant. -/
structure Link where
  variant_ident : String
  variant_fields : FieldsEmb
  link_type : LinkTypeEmb
  custom_description : Option FormatterEmb
  custom_display : Option FormatterEmb
  custom_cause : Option String
deriving DecidableEq, Repr

/-- A nested meta item inside `#[error_chain(...)]`, after
`attr.interpret_meta()`: a bare word (`foreign`, `custom`), a
`key = "string"` pair, a `backtrace = bool` pair, or anything else
(which the engine rejects). -/
inductive MetaItem where
  | word (ident : String)
  | strKV (ident value : String)
  | boolKV (ident : String) (value : Bool)
  | otherNested
deriving DecidableEq, Repr

/-- A `syn::Attribute` on a variant or the enum: its path plus its
interpreted `Meta::List` payload. -/
structure Attr where
  path : SynPath
  payload : List MetaItem
deriving DecidableEq, Repr

/-- `is_error_chain_attribute`: a single-segment non-global path named
`error_chain` (with no path arguments, which the model's paths never carry). -/
def is_error_chain_attribute (a : Attr) : Bool :=
  !a.path.global && a.path.segments == ["error_chain"]

/-- The Msg-shape test inside `impl From<syn::Variant> for Link`
(src 1001-1009): a tuple of exactly one field whose type is a bare,
non-global, single-segment path spelled `String`. -/
def msgShapeOk (fields : FieldsEmb) : Bool :=
  match fields with
  | .unnamed [.path p] => !p.global && p.segments == ["String"]
  | _ => false

/-- The `is_msg` loop (src 996-1012): a variant named `Msg` must have the Msg
shape or expansion aborts; any other name is simply not the sentinel. -/
def isMsgCheck (variant_ident : String) (fields : FieldsEmb) : Except String Bool :=
  if variant_ident == "Msg" then
    if msgShapeOk fields then .ok true
    else .error "Expected Msg member to be a tuple of String"
  else .ok false

/-- The mutable locals of the attribute-processing loop in
`impl From<syn::Variant> for Link` (src 1025-1028). -/
structure AttrState where
  link_type : Option LinkTypeEmb
  custom_description : Option FormatterEmb
  custom_display : Option FormatterEmb
  custom_cause : Option String
deriving DecidableEq, Repr

/-- The initial attribute-processing state: everything unset. -/
def AttrState.init : AttrState := ⟨none, none, none, none⟩

/-- Processing of one nested meta item of a variant's `#[error_chain(...)]`
attribute (src 1036-1083).  `parseType` models `syn::parse_str::<syn::Type>`
and `parseExpr` models `syn::parse_str::<syn::Expr>` (external `syn`
collaborators). -/
def processNested (parseType : String → Except String SynType)
    (parseExpr : String → Except String String)
    (variant_ident : String) (variant_fields : FieldsEmb)
    (st : AttrState) (item : MetaItem) : Except String AttrState :=
  match item with
  | .word w =>
    match w with
    | "foreign" =>
      match variant_fields with
      | .unnamed [ty] => .ok { st with link_type := some (.foreign ty) }
      | _ => .error s!"Foreign link {variant_ident} must be a tuple of one element (the foreign error type)."
    | "custom" => .ok { st with link_type := some .custom }
    | _ => .error s!"Could not parse `error_chain` attribute of member {variant_ident} - expected one of `foreign`, `custom` but got {w}"
  | .strKV k v =>
    match k with
    | "link" =>
      match variant_fields with
      | .unnamed [fieldTy] =>
        match parseType v with
        | .ok t => .ok { st with link_type := some (.chainable t fieldTy) }
        | .error err => .error s!"Could not parse `link` attribute of member {variant_ident} as a type - {err}"
      | _ => .error s!"Chainable link {variant_ident} must be a tuple of one element (the chainable error kind)."
    | "description" =>
      match parseExpr v with
      | .ok e => .ok { st with custom_description := some (.expr e) }
      | .error err => .error s!"Could not parse `description` attribute of member {variant_ident} as an expression - {err}"
    | "display" =>
      match parseExpr v with
      | .ok e => .ok { st with custom_display := some (.expr e) }
      | .error err => .error s!"Could not parse `display` attribute of member {variant_ident} as an expression - {err}"
    | "cause" =>
      match parseExpr v with
      | .ok e => .ok { st with custom_cause := some e }
      | .error err => .error s!"Could not parse `cause` attribute of member {variant_ident} as an expression - {err}"
    | _ => .error s!"Could not parse `error_chain` attribute of member {variant_ident} - expected one of `link`, `description`, `display`, `cause` but got {k}"
  | .boolKV _ _ => .error s!"Could not parse `error_chain` attribute of member {variant_ident} - expected term or name-value meta item"
  | .otherNested => .error s!"Could not parse `error_chain` attribute of member {variant_ident} - expected term or name-value meta item"

/-- The nested-meta loop over one attribute payload, in order (src 1036). -/
def processItems (parseType : String → Except String SynType)
    (parseExpr : String → Except String String)
    (variant_ident : String) (variant_fields : FieldsEmb)
    (st : AttrState) : List MetaItem → Except String AttrState
  | [] => .ok st
  | item :: rest =>
    match processNested parseType parseExpr variant_ident variant_fields st item with
    | .ok st' => processItems parseType parseExpr variant_ident variant_fields st' rest
    | .error e => .error e

/-- The outer attribute loop (src 1030-1034): non-`error_chain` attributes are
skipped, `error_chain` attributes have each nested meta item processed in
order. -/
def processAttrs (parseType : String → Except String SynType)
    (parseExpr : String → Except String String)
    (variant_ident : String) (variant_fields : FieldsEmb)
    (st : AttrState) : List Attr → Except String AttrState
  | [] => .ok st
  | a :: rest =>
    if is_error_chain_attribute a then
      match processItems parseType parseExpr variant_ident variant_fields st a.payload with
      | .ok st' => processAttrs parseType parseExpr variant_ident variant_fields st' rest
      | .error e => .error e
    else processAttrs parseType parseExpr variant_ident variant_fields st rest

/-- A `syn::Variant`: name, attributes, fields. -/
structure SynVariant where
  ident : String
  attrs : List Attr
  fields : FieldsEmb
deriving DecidableEq, Repr

/-- `impl From<syn::Variant> for Link` (src 994-1158).  A variant named `Msg`
with the sentinel shape returns early with no overrides, never touching its
attributes; any other variant has its `error_chain` attributes processed and
must end up with exactly one classification marker. -/
def linkFromVariant (parseType : String → Except String SynType)
    (parseExpr : String → Except String String)
    (v : SynVariant) : Except String Link :=
  match isMsgCheck v.ident v.fields with
  | .error e => .error e
  | .ok true => .ok ⟨v.ident, v.fields, .msg, none, none, none⟩
  | .ok false =>
    match processAttrs parseType parseExpr v.ident v.fields AttrState.init v.attrs with
    | .error e => .error e
    | .ok st =>
      match st.link_type with
      | some lt => .ok ⟨v.ident, v.fields, lt, st.custom_description, st.custom_display, st.custom_cause⟩
      | none => .error ("Member " ++ v.ident ++ " does not have any of #[error_chain(link = \"...\")] or #[error_chain(foreign)] or #[error_chain(custom)].")

/-- `variants.into_iter().map(Into::into).collect()` (src 651), with the panic
of any single conversion aborting the whole expansion. -/
def classifyVariants (parseType : String → Except String SynType)
    (parseExpr : String → Except String String) :
    List SynVariant → Except String (List Link)
  | [] => .ok []
  | v :: rest =>
    match linkFromVariant parseType parseExpr v with
    | .error e => .error e
    | .ok l =>
      match classifyVariants parseType parseExpr rest with
      | .error e => .error e
      | .ok ls => .ok (l :: ls)

/-- A `syntex_fmt_macros::Position`: how a format placeholder refers to its
argument. -/
inductive FmtPosition where
  | argumentNext
  | argumentIs (index : Nat)
  | argumentNamed (name : String)
deriving DecidableEq, Repr

/-- A `syntex_fmt_macros::Piece`: the external format-template parser's
output, either literal text or a placeholder. -/
inductive FmtPiece where
  | str (s : String)
  | nextArgument (position : FmtPosition)
deriving DecidableEq, Repr

/-- `get_parameter_names` (src 1630-1644) over the parser's piece sequence:
collect the parsed names of all named placeholders, rejecting positional
placeholders; `collect::<Result<_, _>>` stops at the first error.
`parseIdent` models `syn::parse_str::<syn::Ident>`. -/
def get_parameter_names (parseIdent : String → Except String String) :
    List FmtPiece → Except String (List String)
  | [] => .ok []
  | .str _ :: rest => get_parameter_names parseIdent rest
  | .nextArgument .argumentNext :: _ =>
    .error ("expected named parameter" ++ " but found `\x7b\x7d`")
  | .nextArgument (.argumentIs index) :: _ =>
    .error ("expected named parameter" ++ s!" but found `\x7b{index}\x7d`")
  | .nextArgument (.argumentNamed name) :: rest =>
    match parseIdent name with
    | .error err => .error s!"could not parse named parameter `\x7b{name}\x7d` - {err}"
    | .ok i =>
      match get_parameter_names parseIdent rest with
      | .error e => .error e
      | .ok more => .ok (i :: more)

/-- `get_parameter_positions` (src 1646-1660): collect the indices of all
explicit positional placeholders, rejecting `\x7b\x7d` and named placeholders;
stops at the first error. -/
def get_parameter_positions : List FmtPiece → Except String (List Nat)
  | [] => .ok []
  | .str _ :: rest => get_parameter_positions rest
  | .nextArgument .argumentNext :: _ =>
    .error ("expected positional parameter" ++ " but found `\x7b\x7d`")
  | .nextArgument (.argumentIs index) :: rest =>
    match get_parameter_positions rest with
    | .error e => .error e
    | .ok more => .ok (index :: more)
  | .nextArgument (.argumentNamed name) :: _ =>
    .error ("expected positional parameter" ++ s!" but found `\x7b{name}\x7d`")

/-- `ensure_no_parameters` (src 1662-1678): reject the first placeholder of
any shape. -/
def ensure_no_parameters : List FmtPiece → Except String Unit
  | [] => .ok ()
  | .str _ :: rest => ensure_no_parameters rest
  | .nextArgument .argumentNext :: _ =>
    .error ("expected no parameters" ++ " but found `\x7b\x7d`")
  | .nextArgument (.argumentIs index) :: _ =>
    .error ("expected no parameters" ++ s!" but found `\x7b{index}\x7d`")
  | .nextArgument (.argumentNamed name) :: _ =>
    .error ("expected no parameters" ++ s!" but found `\x7b{name}\x7d`")

/-- The panic wrapper used by `CustomFormatter::parse` around analyzer errors
(src 1501-1503, 1524-1526, 1546-1548). -/
def formatterAbortMsg (attr_name variant_ident inner : String) : String :=
  s!"Could not parse `{attr_name}` attribute of member {variant_ident} - {inner}"

/-- The outcome of the `const("literal")` shorthand: the literal plus the
generated binding pattern and argument list (referenced fields bound by
reference, unreferenced named fields bound under an `_`-prefixed name,
unreferenced positional fields discarded). -/
inductive FormatBinding where
  | namedB (format_string : String) (bound : List String) (ignored : List String)
  | posB (format_string : String) (bound : List Nat) (arity : Nat)
  | unitB (format_string : String)
deriving DecidableEq, Repr

/-- The field-shape dispatch of `CustomFormatter::parse` after the
`const("...")` literal has been extracted (src 1499-1556): named-field
variants go through `get_parameter_names`, tuple variants through
`get_parameter_positions`, unit variants through `ensure_no_parameters`;
an analyzer error aborts expansion with the wrapped message.  `pieces` is the
external parser's decomposition of `format_string`. -/
def customFormatterFromFormatString (parseIdent : String → Except String String)
    (attr_name variant_ident : String) (variant_fields : FieldsEmb)
    (format_string : String) (pieces : List FmtPiece) : Except String FormatBinding :=
  match variant_fields with
  | .named named =>
    match get_parameter_names parseIdent pieces with
    | .error err => .error (formatterAbortMsg attr_name variant_ident err)
    | .ok referenced_names =>
      .ok (.namedB format_string
        (named.filterMap fun f => if referenced_names.contains f.1 then some f.1 else none)
        (named.filterMap fun f => if referenced_names.contains f.1 then none else some ("_" ++ f.1)))
  | .unnamed tys =>
    match get_parameter_positions pieces with
    | .error err => .error (formatterAbortMsg attr_name variant_ident err)
    | .ok referenced_positions =>
      .ok (.posB format_string
        ((List.range tys.length).filter fun i => referenced_positions.contains i)
        tys.length)
  | .unit =>
    match ensure_no_parameters pieces with
    | .error err => .error (formatterAbortMsg attr_name variant_ident err)
    | .ok _ => .ok (.unitB format_string)

/-- `TopLevelProperties` (src 897-905), restricted to the fields computed by
the attribute fold (the enum's own name and visibility are copied through
unchanged). -/
structure TopLevelProps where
  error_name : String
  result_ext_name : String
  result_name : Option String
  support_backtrace : Bool
deriving DecidableEq, Repr

/-- The defaults of `TopLevelProperties::from` (src 909-912). -/
def TopLevelProps.init : TopLevelProps := ⟨"Error", "ResultExt", some "Result", true⟩

/-- One step of the top-level `#[error_chain(...)]` option fold
(src 922-955).  `parseIdent` models `syn::parse_str::<syn::Ident>` and
`parseBool` models `str::parse::<bool>`. -/
def topLevelStep (parseIdent : String → Except String String)
    (parseBool : String → Except String Bool)
    (st : TopLevelProps) (item : MetaItem) : Except String TopLevelProps :=
  match item with
  | .strKV k v =>
    match k with
    | "error" =>
      match parseIdent v with
      | .ok i => .ok { st with error_name := i }
      | .error err => .error s!"Could not parse `error` value as an identifier - {err}"
    | "result_ext" =>
      match parseIdent v with
      | .ok i => .ok { st with result_ext_name := i }
      | .error err => .error s!"Could not parse `result_ext` value as an identifier - {err}"
    | "result" =>
      if v == "" then .ok { st with result_name := none }
      else
        match parseIdent v with
        | .ok i => .ok { st with result_name := some i }
        | .error err => .error s!"Could not parse `result` value as an identifier - {err}"
    | "backtrace" =>
      match parseBool v with
      | .ok b => .ok { st with support_backtrace := b }
      | .error err => .error s!"Could not parse `backtrace` value - {err}"
    | _ => .error s!"Could not parse `error_chain` attribute - expected one of `error`, `result_ext`, `result`, `backtrace` but got {k}"
  | .boolKV k b =>
    if k == "backtrace" then .ok { st with support_backtrace := b }
    else .error "Could not parse `error_chain` attribute - expected one of `error`, `result_ext`, `result`, `backtrace`"
  | _ => .error "Could not parse `error_chain` attribute - expected one of `error`, `result_ext`, `result`, `backtrace`"

/-- The item fold of `TopLevelProperties::from` over the nested metas of the
enum's `error_chain` attributes, in order (src 914-961). -/
def topLevelFromItems (parseIdent : String → Except String String)
    (parseBool : String → Except String Bool)
    (st : TopLevelProps) : List MetaItem → Except String TopLevelProps
  | [] => .ok st
  | item :: rest =>
    match topLevelStep parseIdent parseBool st item with
    | .ok st' => topLevelFromItems parseIdent parseBool st' rest
    | .error e => .error e

/-- The generated result alias item modelled by its configured name. -/
structure ResultAlias where
  name : String
deriving DecidableEq, Repr

/-- `result_wrapper` (src 708-711): the result alias item is generated
exactly when a result name is configured, under that name. -/
def result_wrapper (result_name : Option String) : Option ResultAlias :=
  result_name.map ResultAlias.mk

/-- A Rust generic parameter of the enum declaration: a type parameter or a
lifetime. -/
inductive GenericParamEmb where
  | typeParam (ident : String)
  | lifetime (ident : String)
deriving DecidableEq, Repr

/-- The `generics` set computed in `derive_error_chain` (src 628-637): the
idents of the declaration's *type* parameters only. -/
def genericsOf (params : List GenericParamEmb) : List String :=
  params.filterMap fun p =>
    match p with
    | .typeParam ident => some ident
    | .lifetime _ => none

/-- The right-hand side of an emitted `description()` match arm, by shape. -/
inductive DescArmRhs where
  | heldString
  | constString (s : String)
  | applyDescExpr (e : String)
  | delegateKindDescription
  | delegateStdErrorDescription
  | stringifyVariant (name : String)
deriving DecidableEq, Repr

/-- `Link::error_kind_description` (src 1161-1230), as the shape of the arm it
emits.  The source distinguishes closure from non-closure expressions only to
adjust call syntax and a lint attribute; both emit an application of the
expression, merged here into `applyDescExpr`. -/
def Link.error_kind_description (l : Link) : DescArmRhs :=
  match l.custom_description, l.link_type with
  | _, .msg => .heldString
  | some (.formatString fs), .chainable _ _ => .constString fs
  | some (.formatString fs), .foreign _ => .constString fs
  | some (.expr e), .chainable _ _ => .applyDescExpr e
  | some (.expr e), .foreign _ => .applyDescExpr e
  | some (.formatString fs), .custom => .constString fs
  | some (.expr e), .custom => .applyDescExpr e
  | none, .chainable _ _ => .delegateKindDescription
  | none, .foreign _ => .delegateStdErrorDescription
  | none, .custom => .stringifyVariant l.variant_ident

/-- The `From` impls `Link::error_kind_from_impl` emits for the kind type
(src 1314-1343): string conversions for the Msg sentinel, a kind conversion
for chainable links, nothing for foreign and custom links. -/
inductive KindFromImpl where
  | msgImpls
  | chainableKindImpl (kindTy : SynType)
deriving DecidableEq, Repr

/-- `Link::error_kind_from_impl` (src 1314-1343). -/
def Link.error_kind_from_impl (l : Link) : Option KindFromImpl :=
  match l.link_type with
  | .msg => some .msgImpls
  | .chainable _ kindTy => some (.chainableKindImpl kindTy)
  | .foreign _ => none
  | .custom => none

/-- The `From` impls `Link::error_from_impl` emits for the wrapper type
(src 1384-1426). -/
inductive ErrorFromImpl where
  | msgImpls
  | chainableImpl (errorTy : SynType)
  | foreignImpl (ty : SynType)
deriving DecidableEq, Repr

/-- `Link::error_from_impl` (src 1384-1426): string conversions for Msg, a
sibling-error conversion for chainable links, a wrapped-type conversion for
foreign links — suppressed when the wrapped type is a bare single-segment
path naming one of the declaration's own generic type parameters — and
nothing for custom links. -/
def Link.error_from_impl (generics : List String) (l : Link) : Option ErrorFromImpl :=
  match l.link_type with
  | .msg => some .msgImpls
  | .chainable errorTy _ => some (.chainableImpl errorTy)
  | .foreign ty =>
    match ty with
    | .path p =>
      match p.global, p.segments with
      | false, [seg] =>
        if generics.contains seg then none
        else some (.foreignImpl ty)
      | _, _ => some (.foreignImpl ty)
    | .other _ => some (.foreignImpl ty)
  | .custom => none

/-- `Link::chained_error_extract_backtrace_case` (src 1428-1440): only a
chainable link contributes a downcast check, against its sibling *error*
type. -/
def Link.chained_error_extract_backtrace_case (l : Link) : Option SynType :=
  match l.link_type with
  | .chainable errorTy _ => some errorTy
  | .msg => none
  | .foreign _ => none
  | .custom => none

/-- `extract_backtrace_fn` (src 682-699): the `ChainedError` impl contains an
`extract_backtrace` function exactly when backtrace support is enabled; its
body checks the wrapper type itself first, then the chainable links'
sibling error types in declaration order.  The value is the ordered list of
those sibling checks. -/
def extract_backtrace_fn (support_backtrace : Bool) (links : List Link) : Option (List SynType) :=
  if support_backtrace then
    some (links.filterMap Link.chained_error_extract_backtrace_case)
  else none

/-- The companion crate's `error_chain::State` (collaborator interface, spec
section 6): the immediate boxed cause and the optional shared backtrace
handle. -/
structure ChainState (E B : Type) where
  next_error : Option E
  backtrace : Option B
deriving DecidableEq, Repr

/-- The representative generated kind enum, one variant per link kind: the
`Msg(String)` sentinel, a chainable variant holding the sibling kind `SK`, a
foreign variant holding the foreign error `E`, and a custom variant holding
payload `F`. -/
inductive ModelKind (SK E F : Type) where
  | Msg (s : String)
  | ChainV (k : SK)
  | ForeignV (e : E)
  | CustomV (x : F)
deriving DecidableEq, Repr

/-- A description or display override as the generated match arm consumes it:
either the `const("literal")` shorthand or a function of the variant's
(by-reference) fields. -/
inductive FmtOverride (α : Type) where
  | constFmt (s : String)
  | exprF (f : α → String)

/-- The per-variant override configuration of the representative enum.  The
Msg sentinel carries no overrides: classification returns it early with all
overrides unset, and the emitters' `(_, LinkType::Msg)` arms ignore overrides
anyway. -/
structure ModelOverrides (SK E F : Type) where
  chainDesc : Option (FmtOverride SK)
  foreignDesc : Option (FmtOverride E)
  customDesc : Option (FmtOverride F)
  chainDisp : Option (FmtOverride SK)
  foreignDisp : Option (FmtOverride E)
  customDisp : Option (FmtOverride F)
  chainCause : Option (SK → E)
  foreignCause : Option (E → E)
  customCause : Option (F → E)

/-- The runtime operations of the external collaborators that generated code
delegates to: the sibling kind's `description()` and `Display`, and the
dynamic-error universe's `::std::error::Error::description`/`cause` and
`Display`. `render` is `write!(f, lit, args...)` for a `const` display
override, as a function of the format literal and the bound fields. -/
structure ModelEnv (SK E F : Type) where
  skDescription : SK → String
  skDisplay : SK → String
  errDescription : E → String
  errDisplay : E → String
  errCause : E → Option E
  renderSK : String → SK → String
  renderE : String → E → String
  renderF : String → F → String

/-- The generated `description()` on the kind (src 716-724 with the arms of
`Link::error_kind_description`, src 1161-1230): the Msg sentinel returns the
held string; a description override returns its constant or applies its
expression to the fields; otherwise chainable delegates to the sibling kind's
`description()`, foreign to `::std::error::Error::description`, and custom
returns the stringified variant name (`"CustomV"` for the representative
enum). -/
def ModelKind.description {SK E F : Type} (env : ModelEnv SK E F)
    (cfg : ModelOverrides SK E F) : ModelKind SK E F → String
  | .Msg s => s
  | .ChainV k =>
    match cfg.chainDesc with
    | some (.constFmt s) => s
    | some (.exprF f) => f k
    | none => env.skDescription k
  | .ForeignV e =>
    match cfg.foreignDesc with
    | some (.constFmt s) => s
    | some (.exprF f) => f e
    | none => env.errDescription e
  | .CustomV x =>
    match cfg.customDesc with
    | some (.constFmt s) => s
    | some (.exprF f) => f x
    | none => "CustomV"

/-- The generated `::std::fmt::Display for ErrorKind` (src 726-733 with the
arms of `Link::error_kind_display_case`, src 1232-1312), as the string the
formatter receives: the Msg sentinel displays the held string; a display
override renders its `const` literal over the bound fields (`write!`) or
applies its expression; otherwise chainable and foreign delegate to the held
value's `Display`, and custom writes `self.description()`. -/
def ModelKind.displayOut {SK E F : Type} (env : ModelEnv SK E F)
    (cfg : ModelOverrides SK E F) : ModelKind SK E F → String
  | .Msg s => s
  | .ChainV k =>
    match cfg.chainDisp with
    | some (.constFmt s) => env.renderSK s k
    | some (.exprF f) => f k
    | none => env.skDisplay k
  | .ForeignV e =>
    match cfg.foreignDisp with
    | some (.constFmt s) => env.renderE s e
    | some (.exprF f) => f e
    | none => env.errDisplay e
  | .CustomV x =>
    match cfg.customDisp with
    | some (.constFmt s) => env.renderF s x
    | some (.exprF f) => f x
    | none => ModelKind.description env cfg (.CustomV x)

/-- The generated wrapper error struct (src 741-749): field `0` is the kind,
field `1` the companion crate's chain state. -/
structure ModelError (SK E F B : Type) where
  kind : ModelKind SK E F
  state : ChainState E B

/-- The generated `::std::error::Error::cause` (src 794-804 with the arms of
`Link::error_cause_case`, src 1345-1382): the immediate chained cause wins
when present; otherwise a cause override applies to the variant's fields,
a foreign variant without override delegates to the foreign error's own
`cause()`, and every other variant falls through to the `_ => None` arm (the
Msg sentinel emits no arm at all, even before the override check). -/
def ModelError.cause {SK E F B : Type} (env : ModelEnv SK E F)
    (cfg : ModelOverrides SK E F) (self : ModelError SK E F B) : Option E :=
  match self.state.next_error with
  | some c => some c
  | none =>
    match self.kind with
    | .Msg _ => none
    | .ChainV k =>
      match cfg.chainCause with
      | some f => some (f k)
      | none => none
    | .ForeignV e =>
      match cfg.foreignCause with
      | some f => some (f e)
      | none => env.errCause e
    | .CustomV x =>
      match cfg.customCause with
      | some f => some (f x)
      | none => none

/-- A sibling hierarchy's wrapper error: the same two-field layout generated
by the same engine (or by `error_chain!`), with kind type `SK` and the same
`error_chain::State`. -/
structure SiblingError (SK E B : Type) where
  kind : SK
  state : ChainState E B

/-- The generated `From<sibling_error> for Error` of a chainable link
(src 1403-1409): `Error(ErrorKind::Variant(err.0), err.1)` — the sibling's
kind is rewrapped and its chain state is moved across unchanged. -/
def ModelError.fromSibling {SK E F B : Type} (err : SiblingError SK E B) :
    ModelError SK E F B :=
  ⟨.ChainV err.kind, err.state⟩

/-- The generated `Error::from_kind` (src 753-756): pairs the kind with
`error_chain::State::default()`, which is passed in since backtrace capture
is the collaborator's (environment-gated) business. -/
def ModelError.from_kind {SK E F B : Type} (defaultState : ChainState E B)
    (kind : ModelKind SK E F) : ModelError SK E F B :=
  ⟨kind, defaultState⟩

/-- The generated `From<ErrorKind> for Error` (src 815-817):
`Self::from_kind(kind)`. -/
def errorFromKind {SK E F B : Type} (defaultState : ChainState E B)
    (kind : ModelKind SK E F) : ModelError SK E F B :=
  ModelError.from_kind defaultState kind

/-- The generated `From<Error> for ErrorKind` (src 737-739): `err.0`. -/
def kindFromError {SK E F B : Type} (err : ModelError SK E F B) : ModelKind SK E F :=
  err.kind

/-- A value behind `&(::std::error::Error + Send + 'static)` as
`extract_backtrace` sees it: its dynamic type (a downcast to `T` succeeds
exactly when the dynamic type is `T`) and, for wrapper errors of some
generated hierarchy, the `.1.backtrace` stored in their state. -/
structure DynErrorView (B : Type) where
  dynTy : SynType
  storedBacktrace : Option B
deriving DecidableEq, Repr

/-- The chainable-link downcast cascade in the emitted `extract_backtrace`
body (src 691): each case returns the stored backtrace on the first matching
downcast. -/
def extract_backtrace_loop {B : Type} (err : DynErrorView B) :
    List SynType → Option B
  | [] => none
  | t :: rest =>
    if err.dynTy = t then err.storedBacktrace
    else extract_backtrace_loop err rest

/-- The emitted `extract_backtrace` body (src 686-694): first try to downcast
to the generated wrapper type itself, then each chainable sibling error type
in order, returning that error's stored backtrace on the first match, else
`None`. -/
def extract_backtrace_run {B : Type} (selfTy : SynType) (cases : List SynType)
    (err : DynErrorView B) : Option B :=
  if err.dynTy = selfTy then err.storedBacktrace
  else extract_backtrace_loop err cases

/-- Claim C1: with no description override, the generated `description()` arm
returns the held string for the Msg sentinel, delegates to the sibling kind's
`description()` for a chainable link, delegates to
`::std::error::Error::description` for a foreign link, and returns the
stringified variant name for a custom link (for the Msg sentinel this holds
whatever override the `Link` record carries, matching the `(_, Msg)` arm);
and with no display override, a custom variant's `Display` output is exactly
its `description()`. -/
theorem c1_description_defaults_and_custom_display :
    (∀ (ident : String) (fields : FieldsEmb) (d dsp : Option FormatterEmb)
        (c : Option String),
      Link.error_kind_description ⟨ident, fields, .msg, d, dsp, c⟩ = .heldString) ∧
    (∀ (ident : String) (fields : FieldsEmb) (a b : SynType)
        (dsp : Option FormatterEmb) (c : Option String),
      Link.error_kind_description ⟨ident, fields, .chainable a b, none, dsp, c⟩ =
        .delegateKindDescription) ∧
    (∀ (ident : String) (fields : FieldsEmb) (t : SynType)
        (dsp : Option FormatterEmb) (c : Option String),
      Link.error_kind_description ⟨ident, fields, .foreign t, none, dsp, c⟩ =
        .delegateStdErrorDescription) ∧
    (∀ (ident : String) (fields : FieldsEmb) (dsp : Option FormatterEmb)
        (c : Option String),
      Link.error_kind_description ⟨ident, fields, .custom, none, dsp, c⟩ =
        .stringifyVariant ident) ∧
    (∀ (SK E F : Type) (env : ModelEnv SK E F) (cfg : ModelOverrides SK E F) (x : F),
      ModelKind.displayOut env { cfg with customDisp := none } (.CustomV x) =
        ModelKind.description env { cfg with customDisp := none } (.CustomV x)) := by
  refine ⟨?_, ?_, ?_, ?_, ?_⟩
  · intro ident fields d dsp c
    rcases d with _ | f
    · rfl
    · rcases f with fs | e <;> rfl
  · intro ident fields a b dsp c; rfl
  · intro ident fields t dsp c; rfl
  · intro ident fields dsp c; rfl
  · intro SK E F env cfg x; rfl

/-- Claim C2: the generated `::std::error::Error::cause()` returns the
immediate chained cause whenever the chain state holds one, for any variant
and any overrides; with no chained cause, a cause override is applied to the
variant's fields and wrapped in `Some`, a foreign variant without override
delegates to the foreign error's own `cause()`, and Msg, chainable and custom
variants without override return `None`. -/
theorem c2_cause_semantics :
    ∀ (SK E F B : Type) (env : ModelEnv SK E F) (cfg : ModelOverrides SK E F)
      (kind : ModelKind SK E F) (bt : Option B) (c : E) (s : String) (k : SK)
      (e : E) (x : F) (fc : SK → E) (fe : E → E) (fx : F → E),
      (ModelError.cause env cfg ⟨kind, ⟨some c, bt⟩⟩ = some c) ∧
      (ModelError.cause env cfg ⟨.Msg s, ⟨none, bt⟩⟩ = none) ∧
      (ModelError.cause env { cfg with chainCause := some fc }
        ⟨.ChainV k, ⟨none, bt⟩⟩ = some (fc k)) ∧
      (ModelError.cause env { cfg with foreignCause := some fe }
        ⟨.ForeignV e, ⟨none, bt⟩⟩ = some (fe e)) ∧
      (ModelError.cause env { cfg with customCause := some fx }
        ⟨.CustomV x, ⟨none, bt⟩⟩ = some (fx x)) ∧
      (ModelError.cause env { cfg with foreignCause := none }
        ⟨.ForeignV e, ⟨none, bt⟩⟩ = env.errCause e) ∧
      (ModelError.cause env { cfg with chainCause := none }
        ⟨.ChainV k, ⟨none, bt⟩⟩ = none) ∧
      (ModelError.cause env { cfg with customCause := none }
        ⟨.CustomV x, ⟨none, bt⟩⟩ = none) := by
  intro SK E F B env cfg kind bt c s k e x fc fe fx
  exact ⟨rfl, rfl, rfl, rfl, rfl, rfl, rfl, rfl⟩

/-- Claim C4: the generated `From<sibling_error>` impl of a chainable link
wraps the sibling's kind in the variant and moves the sibling's chain state
across unchanged, so the sibling's captured cause and backtrace are
preserved. -/
theorem c4_chainable_from_preserves_state :
    ∀ (SK E F B : Type) (err : SiblingError SK E B),
      ((ModelError.fromSibling err : ModelError SK E F B).state = err.state) ∧
      ((ModelError.fromSibling err : ModelError SK E F B).kind = .ChainV err.kind) ∧
      ((ModelError.fromSibling err : ModelError SK E F B).state.backtrace =
        err.state.backtrace) ∧
      ((ModelError.fromSibling err : ModelError SK E F B).state.next_error =
        err.state.next_error) := by
  intro SK E F B err
  exact ⟨rfl, rfl, rfl, rfl⟩

/-- Claim C10: converting a kind into the wrapper via the generated
`From<ErrorKind> for Error` (which is `from_kind`) and back via the generated
`From<Error> for ErrorKind` is the identity on kinds, and the backward
conversion discards the wrapper's chain state. -/
theorem c10_kind_wrapper_round_trip :
    ∀ (SK E F B : Type) (defaultState st : ChainState E B) (k : ModelKind SK E F),
      kindFromError (errorFromKind defaultState k) = k ∧
      kindFromError (ModelError.from_kind defaultState k) = k ∧
      kindFromError (⟨k, st⟩ : ModelError SK E F B) = k := by
  intro SK E F B defaultState st k
  exact ⟨rfl, rfl, rfl⟩

/-- Claim C9: the Msg sentinel check accepts only the bare single-segment
spelling `String` — the fully qualified `::std::string::String` aborts
expansion with the Msg-shape panic — and once a variant is recognized as the
sentinel its `error_chain` attributes are never processed: the classification
result does not depend on the attribute list (or on any parser), and all
overrides come back unset. -/
theorem c9_msg_field_type_and_ignored_attrs :
    ∀ (pt pt' : String → Except String SynType)
      (pe pe' : String → Except String String) (attrs attrs' : List Attr),
      (linkFromVariant pt pe
          ⟨"Msg", attrs, .unnamed [.path ⟨true, ["std", "string", "String"]⟩]⟩ =
        .error "Expected Msg member to be a tuple of String") ∧
      (linkFromVariant pt pe ⟨"Msg", attrs, .unnamed [.path ⟨false, ["String"]⟩]⟩ =
        linkFromVariant pt' pe' ⟨"Msg", attrs', .unnamed [.path ⟨false, ["String"]⟩]⟩) ∧
      (∃ l, linkFromVariant pt pe ⟨"Msg", attrs, .unnamed [.path ⟨false, ["String"]⟩]⟩ =
          .ok l ∧
        l.link_type = .msg ∧ l.custom_description = none ∧
        l.custom_display = none ∧ l.custom_cause = none) := by
  intro pt pt' pe pe' attrs attrs'
  refine ⟨rfl, rfl, ⟨⟨"Msg", .unnamed [.path ⟨false, ["String"]⟩], .msg, none, none, none⟩,
    rfl, rfl, rfl, rfl, rfl⟩⟩

/-- The downcast cascade returns the error's stored backtrace as soon as its
dynamic type appears among the checked sibling error types. -/
theorem extract_backtrace_loop_mem {B : Type} (err : DynErrorView B)
    (cases : List SynType) (h : err.dynTy ∈ cases) :
    extract_backtrace_loop err cases = err.storedBacktrace := by
  induction cases with
  | nil => cases h
  | cons t rest ih =>
    by_cases h1 : err.dynTy = t
    · simp [extract_backtrace_loop, h1]
    · rcases List.mem_cons.mp h with h2 | h2
      · exact absurd h2 h1
      · simp [extract_backtrace_loop, h1, ih h2]

/-- The downcast cascade returns `none` when the error's dynamic type matches
none of the checked sibling error types. -/
theorem extract_backtrace_loop_not_mem {B : Type} (err : DynErrorView B)
    (cases : List SynType) (h : err.dynTy ∉ cases) :
    extract_backtrace_loop err cases = none := by
  induction cases with
  | nil => rfl
  | cons t rest ih =>
    have h1 : err.dynTy ≠ t := fun he => h (he ▸ List.mem_cons_self t rest)
    have h2 : err.dynTy ∉ rest := fun he => h (List.mem_cons_of_mem t he)
    simp [extract_backtrace_loop, h1, ih h2]

/-- Claim C6: the `ChainedError` impl contains an `extract_backtrace`
function exactly when backtrace support is enabled; it first tries the
generated wrapper type itself, then each chainable link's sibling error type
in declaration order (non-chainable links contribute no check), returning the
first match's stored backtrace and `None` when nothing matches. -/
theorem c6_extract_backtrace :
    ∀ (links : List Link) (l : Link) (a b : SynType) (B : Type)
      (selfTy : SynType) (cases : List SynType) (err : DynErrorView B),
      (extract_backtrace_fn false links = none) ∧
      (extract_backtrace_fn true links =
        some (links.filterMap Link.chained_error_extract_backtrace_case)) ∧
      (Link.chained_error_extract_backtrace_case { l with link_type := .chainable a b } =
        some a) ∧
      (Link.chained_error_extract_backtrace_case { l with link_type := .msg } = none) ∧
      (Link.chained_error_extract_backtrace_case { l with link_type := .foreign a } = none) ∧
      (Link.chained_error_extract_backtrace_case { l with link_type := .custom } = none) ∧
      (err.dynTy = selfTy →
        extract_backtrace_run selfTy cases err = err.storedBacktrace) ∧
      (err.dynTy ≠ selfTy → err.dynTy ∈ cases →
        extract_backtrace_run selfTy cases err = err.storedBacktrace) ∧
      (err.dynTy ≠ selfTy → err.dynTy ∉ cases →
        extract_backtrace_run selfTy cases err = none) := by
  intro links l a b B selfTy cases err
  refine ⟨rfl, rfl, rfl, rfl, rfl, rfl, ?_, ?_, ?_⟩
  · intro h; simp [extract_backtrace_run, h]
  · intro h1 h2; simp [extract_backtrace_run, h1, extract_backtrace_loop_mem err cases h2]
  · intro h1 h2; simp [extract_backtrace_run, h1, extract_backtrace_loop_not_mem err cases h2]

/-- Witness for C6 at concrete inputs: with support disabled no function is
emitted; with it enabled the chainable sibling checks are collected in order;
and a dynamic value of the sibling error type that is not the wrapper itself
yields its stored backtrace. -/
theorem c6_extract_backtrace_witness :
    extract_backtrace_fn true
        [⟨"A", .unnamed [.other "k"], .chainable (.other "SibErr") (.other "SibKind"),
          none, none, none⟩,
         ⟨"B", .unnamed [.other "t"], .foreign (.other "IoErr"), none, none, none⟩] =
      some [.other "SibErr"] ∧
    extract_backtrace_run (.other "SelfErr") [.other "SibErr"]
        (⟨.other "SibErr", some (7 : Nat)⟩ : DynErrorView Nat) = some 7 := by
  constructor
  · exact (c6_extract_backtrace _ ⟨"A", .unit, .custom, none, none, none⟩ (.other "x")
      (.other "y") Nat (.other "z") [] ⟨.other "w", none⟩).2.1
  · exact (c6_extract_backtrace [] ⟨"A", .unit, .custom, none, none, none⟩ (.other "x")
      (.other "y") Nat (.other "SelfErr") [.other "SibErr"]
      ⟨.other "SibErr", some 7⟩).2.2.2.2.2.2.2.1 (by decide) (by decide)

/-- Claim C5: for a foreign link, `error_from_impl` suppresses the
`From<wrapped_type>` impl exactly when the wrapped type is a bare
single-segment non-global path naming one of the declaration's own generic
type parameters; in every other case it emits the `From<wrapped_type>` impl. -/
theorem c5_foreign_from_impl_suppression :
    ∀ (params : List GenericParamEmb) (ident : String) (fields : FieldsEmb)
      (ty : SynType) (d dsp : Option FormatterEmb) (c : Option String),
      (Link.error_from_impl (genericsOf params)
          ⟨ident, fields, .foreign ty, d, dsp, c⟩ = none ↔
        ∃ seg, ty = .path ⟨false, [seg]⟩ ∧ seg ∈ genericsOf params) ∧
      ((¬ ∃ seg, ty = .path ⟨false, [seg]⟩ ∧ seg ∈ genericsOf params) →
        Link.error_from_impl (genericsOf params)
          ⟨ident, fields, .foreign ty, d, dsp, c⟩ = some (.foreignImpl ty)) := by
  intro params ident fields ty d dsp c
  have main : Link.error_from_impl (genericsOf params)
      ⟨ident, fields, .foreign ty, d, dsp, c⟩ = none ↔
      ∃ seg, ty = .path ⟨false, [seg]⟩ ∧ seg ∈ genericsOf params := by
    cases ty with
    | other s => simp [Link.error_from_impl]
    | path p =>
      rcases p with ⟨gl, segs⟩
      cases gl with
      | true => simp [Link.error_from_impl]
      | false =>
        match segs with
        | [] => simp [Link.error_from_impl]
        | [seg] =>
          by_cases hmem : seg ∈ genericsOf params
          · have hc : (genericsOf params).contains seg = true := by
              simpa [List.contains] using hmem
            simp [Link.error_from_impl, hc, hmem]
          · have hc : (genericsOf params).contains seg = false := by
              simp [List.contains]; exact hmem
            simp [Link.error_from_impl, hc, hmem]
        | s1 :: s2 :: rest => simp [Link.error_from_impl]
  refine ⟨main, fun h => ?_⟩
  cases ty with
  | other s => simp [Link.error_from_impl]
  | path p =>
    rcases p with ⟨gl, segs⟩
    cases gl with
    | true => simp [Link.error_from_impl]
    | false =>
      match segs with
      | [] => simp [Link.error_from_impl]
      | [seg] =>
        by_cases hmem : seg ∈ genericsOf params
        · exact absurd ⟨seg, rfl, hmem⟩ h
        · have hc : (genericsOf params).contains seg = false := by
            simp [List.contains]; exact hmem
          simp only [Link.error_from_impl, hc]
          simp [hmem]
      | s1 :: s2 :: rest => simp [Link.error_from_impl]

/-- Witness for C5 at concrete inputs: a foreign link wrapping the bare
generic parameter `T` of `enum Kind<T>` gets no `From` impl, while one
wrapping `::std::fmt::Error` does. -/
theorem c5_foreign_from_impl_suppression_witness :
    Link.error_from_impl (genericsOf [.lifetime "a", .typeParam "T"])
        ⟨"Gen", .unnamed [.path ⟨false, ["T"]⟩], .foreign (.path ⟨false, ["T"]⟩),
          none, none, none⟩ = none ∧
    Link.error_from_impl (genericsOf [.lifetime "a", .typeParam "T"])
        ⟨"Fmt", .unnamed [.path ⟨true, ["std", "fmt", "Error"]⟩],
          .foreign (.path ⟨true, ["std", "fmt", "Error"]⟩), none, none, none⟩ =
      some (.foreignImpl (.path ⟨true, ["std", "fmt", "Error"]⟩)) := by
  constructor
  · exact (c5_foreign_from_impl_suppression [.lifetime "a", .typeParam "T"] "Gen"
      (.unnamed [.path ⟨false, ["T"]⟩]) (.path ⟨false, ["T"]⟩) none none none).1.mpr
      ⟨"T", rfl, by decide⟩
  · exact (c5_foreign_from_impl_suppression [.lifetime "a", .typeParam "T"] "Fmt"
      (.unnamed [.path ⟨true, ["std", "fmt", "Error"]⟩])
      (.path ⟨true, ["std", "fmt", "Error"]⟩) none none none).2 (by
        rintro ⟨seg, hseg, _⟩
        simp at hseg)

/-- Attribute processing of one nested meta item never classifies a variant
as the Msg sentinel: only `foreign`, `custom` and `link` markers can be
set. -/
theorem processNested_not_msg
    (pt : String → Except String SynType) (pe : String → Except String String)
    (vi : String) (vf : FieldsEmb) (st st' : AttrState) (item : MetaItem)
    (h0 : st.link_type ≠ some .msg)
    (h : processNested pt pe vi vf st item = .ok st') :
    st'.link_type ≠ some .msg := by
  cases item <;> simp only [processNested] at h <;> repeat' split at h
  all_goals (try exact Except.noConfusion h)
  all_goals (injection h with h; subst h; simp_all)

/-- The nested-meta loop preserves the not-Msg classification invariant. -/
theorem processItems_not_msg
    (pt : String → Except String SynType) (pe : String → Except String String)
    (vi : String) (vf : FieldsEmb) (items : List MetaItem) :
    ∀ (st st' : AttrState), st.link_type ≠ some .msg →
      processItems pt pe vi vf st items = .ok st' →
      st'.link_type ≠ some .msg := by
  induction items with
  | nil =>
    intro st st' h0 h
    simp only [processItems] at h
    injection h with h
    subst h
    exact h0
  | cons item rest ih =>
    intro st st' h0 h
    simp only [processItems] at h
    rcases he : processNested pt pe vi vf st item with e | st1
    · rw [he] at h; exact Except.noConfusion h
    · rw [he] at h
      exact ih st1 st' (processNested_not_msg pt pe vi vf st st1 item h0 he) h

/-- The attribute loop preserves the not-Msg classification invariant. -/
theorem processAttrs_not_msg
    (pt : String → Except String SynType) (pe : String → Except String String)
    (vi : String) (vf : FieldsEmb) (attrs : List Attr) :
    ∀ (st st' : AttrState), st.link_type ≠ some .msg →
      processAttrs pt pe vi vf st attrs = .ok st' →
      st'.link_type ≠ some .msg := by
  induction attrs with
  | nil =>
    intro st st' h0 h
    simp only [processAttrs] at h
    injection h with h
    subst h
    exact h0
  | cons a rest ih =>
    intro st st' h0 h
    simp only [processAttrs] at h
    by_cases hec : is_error_chain_attribute a
    · rw [if_pos hec] at h
      rcases he : processItems pt pe vi vf st a.payload with e | st1
      · rw [he] at h; exact Except.noConfusion h
      · rw [he] at h
        exact ih st1 st' (processItems_not_msg pt pe vi vf a.payload st st1 h0 he) h
    · rw [if_neg hec] at h
      exact ih st st' h0 h

/-- A variant not named `Msg` is never classified as the Msg sentinel. -/
theorem linkFromVariant_not_msg
    (pt : String → Except String SynType) (pe : String → Except String String)
    (v : SynVariant) (l : Link) (hne : v.ident ≠ "Msg")
    (h : linkFromVariant pt pe v = .ok l) :
    l.link_type ≠ .msg := by
  have hb : (v.ident == "Msg") = false := beq_eq_false_iff_ne.mpr hne
  simp only [linkFromVariant, isMsgCheck, hb, Bool.false_eq_true, if_false] at h
  split at h
  · exact Except.noConfusion h
  · rename_i st heq
    split at h
    · rename_i lt heq2
      injection h with h
      subst h
      have hst : st.link_type ≠ some .msg :=
        processAttrs_not_msg pt pe v.ident v.fields v.attrs AttrState.init st
          (by simp [AttrState.init]) heq
      show lt ≠ LinkTypeEmb.msg
      intro hmsg
      exact hst (by rw [heq2, hmsg])
    · exact Except.noConfusion h

/-- Every link produced by classifying a variant list comes from one of the
variants. -/
theorem classifyVariants_mem
    (pt : String → Except String SynType) (pe : String → Except String String)
    (vs : List SynVariant) :
    ∀ (links : List Link), classifyVariants pt pe vs = .ok links →
      ∀ l ∈ links, ∃ v ∈ vs, linkFromVariant pt pe v = .ok l := by
  induction vs with
  | nil =>
    intro links h l hl
    simp only [classifyVariants] at h
    injection h with h
    subst h
    cases hl
  | cons v rest ih =>
    intro links h l hl
    simp only [classifyVariants] at h
    rcases hv : linkFromVariant pt pe v with e | l1
    · rw [hv] at h; exact Except.noConfusion h
    · rw [hv] at h
      rcases hr : classifyVariants pt pe rest with e | ls
      · rw [hr] at h; exact Except.noConfusion h
      · rw [hr] at h
        injection h with h
        subst h
        rcases List.mem_cons.mp hl with h1 | h1
        · exact ⟨v, List.mem_cons_self v rest, h1 ▸ hv⟩
        · rcases ih ls hr l h1 with ⟨v', hv', he'⟩
          exact ⟨v', List.mem_cons_of_mem v hv', he'⟩

/-- Only the Msg sentinel makes `error_kind_from_impl` emit the string
conversions for the kind type. -/
theorem error_kind_from_impl_msg_only (l : Link)
    (h : l.error_kind_from_impl = some .msgImpls) : l.link_type = .msg := by
  rcases hl : l.link_type with _ | ⟨a, b⟩ | t | _
  all_goals simp only [Link.error_kind_from_impl, hl] at h
  · rfl
  · simp at h
  · simp at h
  · simp at h

/-- Only the Msg sentinel makes `error_from_impl` emit the string conversions
for the wrapper type. -/
theorem error_from_impl_msg_only (generics : List String) (l : Link)
    (h : l.error_from_impl generics = some .msgImpls) : l.link_type = .msg := by
  rcases hl : l.link_type with _ | ⟨a, b⟩ | t | _
  all_goals simp only [Link.error_from_impl, hl] at h
  · rfl
  · simp at h
  · repeat' split at h
    all_goals simp at h
  · simp at h

/-- Claim C7: a variant named `Msg` is classified as the Message sentinel
exactly when it is a tuple variant with one field of the owned-string type;
a name match with any other shape aborts expansion with the Msg-shape panic;
and when no variant is named `Msg`, classification emits no string-conversion
(`From<String>` / `From<&str>`) impls for the kind type or the wrapper
type. -/
theorem c7_msg_sentinel_and_string_impls :
    ∀ (pt : String → Except String SynType) (pe : String → Except String String)
      (attrs : List Attr) (fields : FieldsEmb),
      (linkFromVariant pt pe ⟨"Msg", attrs, .unnamed [.path ⟨false, ["String"]⟩]⟩ =
        .ok ⟨"Msg", .unnamed [.path ⟨false, ["String"]⟩], .msg, none, none, none⟩) ∧
      (msgShapeOk fields = false →
        linkFromVariant pt pe ⟨"Msg", attrs, fields⟩ =
          .error "Expected Msg member to be a tuple of String") ∧
      (∀ (vs : List SynVariant) (links : List Link) (generics : List String),
        (∀ v ∈ vs, v.ident ≠ "Msg") →
        classifyVariants pt pe vs = .ok links →
        KindFromImpl.msgImpls ∉ links.filterMap Link.error_kind_from_impl ∧
        ErrorFromImpl.msgImpls ∉ links.filterMap (Link.error_from_impl generics)) := by
  intro pt pe attrs fields
  refine ⟨rfl, ?_, ?_⟩
  · intro h
    simp [linkFromVariant, isMsgCheck, h]
  · intro vs links generics hno hcl
    constructor
    · intro hmem
      rw [List.mem_filterMap] at hmem
      obtain ⟨l, hl, hfl⟩ := hmem
      obtain ⟨v, hv, hlv⟩ := classifyVariants_mem pt pe vs links hcl l hl
      exact linkFromVariant_not_msg pt pe v l (hno v hv) hlv
        (error_kind_from_impl_msg_only l hfl)
    · intro hmem
      rw [List.mem_filterMap] at hmem
      obtain ⟨l, hl, hfl⟩ := hmem
      obtain ⟨v, hv, hlv⟩ := classifyVariants_mem pt pe vs links hcl l hl
      exact linkFromVariant_not_msg pt pe v l (hno v hv) hlv
        (error_from_impl_msg_only generics l hfl)

/-- Witness for C7 at concrete inputs: a unit variant named `Msg` aborts
expansion, and a one-variant enum with only a custom link produces no
string-conversion impl for the kind type. -/
theorem c7_msg_sentinel_and_string_impls_witness :
    linkFromVariant (fun _ => .ok (.other "T")) (fun s => .ok s) ⟨"Msg", [], .unit⟩ =
      .error "Expected Msg member to be a tuple of String" ∧
    KindFromImpl.msgImpls ∉
      ([⟨"A", .unit, .custom, none, none, none⟩] : List Link).filterMap
        Link.error_kind_from_impl := by
  constructor
  · exact (c7_msg_sentinel_and_string_impls (fun _ => .ok (.other "T")) (fun s => .ok s)
      [] .unit).2.1 (by decide)
  · exact ((c7_msg_sentinel_and_string_impls (fun _ => .ok (.other "T")) (fun s => .ok s)
      [] .unit).2.2
      [⟨"A", [⟨⟨false, ["error_chain"]⟩, [.word "custom"]⟩], .unit⟩]
      [⟨"A", .unit, .custom, none, none, none⟩] []
      (by decide) rfl).1

/-- Claim C8: the result alias is named `Result` by default; a `result`
option carrying a parsable identifier renames it; the explicit empty string
sets the configured name to `None`, which suppresses alias generation
entirely; and a non-empty value that fails identifier parsing aborts
expansion. -/
theorem c8_result_alias_option :
    ∀ (pi : String → Except String String) (pb : String → Except String Bool)
      (v i e : String),
      (topLevelFromItems pi pb TopLevelProps.init [] = .ok TopLevelProps.init ∧
        TopLevelProps.init.result_name = some "Result" ∧
        result_wrapper TopLevelProps.init.result_name = some ⟨"Result"⟩) ∧
      (v ≠ "" → pi v = .ok i →
        topLevelFromItems pi pb TopLevelProps.init [.strKV "result" v] =
          .ok { TopLevelProps.init with result_name := some i } ∧
        result_wrapper (some i) = some ⟨i⟩) ∧
      (topLevelFromItems pi pb TopLevelProps.init [.strKV "result" ""] =
        .ok { TopLevelProps.init with result_name := none } ∧
        result_wrapper none = none) ∧
      (v ≠ "" → pi v = .error e →
        topLevelFromItems pi pb TopLevelProps.init [.strKV "result" v] =
          .error s!"Could not parse `result` value as an identifier - {e}") := by
  intro pi pb v i e
  refine ⟨⟨rfl, rfl, rfl⟩, ?_, ⟨rfl, rfl⟩, ?_⟩
  · intro hv hp
    have hb : (v == "") = false := beq_eq_false_iff_ne.mpr hv
    constructor
    · simp [topLevelFromItems, topLevelStep, hb, hp]
    · rfl
  · intro hv hp
    have hb : (v == "") = false := beq_eq_false_iff_ne.mpr hv
    simp [topLevelFromItems, topLevelStep, hb, hp]

/-- Witness for C8 at concrete inputs: with an identity identifier parser,
`result = "MyResult"` renames the alias and a failing parse aborts. -/
theorem c8_result_alias_option_witness :
    topLevelFromItems (fun s => .ok s) (fun _ => .ok true) TopLevelProps.init
        [.strKV "result" "MyResult"] =
      .ok ⟨"Error", "ResultExt", some "MyResult", true⟩ ∧
    topLevelFromItems (fun s => .error ("bad ident " ++ s)) (fun _ => .ok true)
        TopLevelProps.init [.strKV "result" "not an ident"] =
      .error "Could not parse `result` value as an identifier - bad ident not an ident" := by
  constructor
  · exact ((c8_result_alias_option (fun s => .ok s) (fun _ => .ok true) "MyResult"
      "MyResult" "").2.1 (by decide) rfl).1
  · exact (c8_result_alias_option (fun s => .error ("bad ident " ++ s)) (fun _ => .ok true)
      "not an ident" "" "bad ident not an ident").2.2.2 (by decide) rfl

/-- A positional placeholder: `\x7b\x7d` or `\x7bN\x7d`. -/
def isPositionalPiece (p : FmtPiece) : Prop :=
  p = .nextArgument .argumentNext ∨ ∃ n, p = .nextArgument (.argumentIs n)

/-- A named placeholder: `\x7bname\x7d`. -/
def isNamedPiece (p : FmtPiece) : Prop :=
  ∃ name, p = .nextArgument (.argumentNamed name)

/-- Any placeholder at all. -/
def isPlaceholderPiece (p : FmtPiece) : Prop :=
  ∃ pos, p = .nextArgument pos

/-- With a positional placeholder somewhere in the template and every named
placeholder parsable as an identifier, `get_parameter_names` fails with an
"expected named parameter" message. -/
theorem get_parameter_names_positional_err
    (parseIdent : String → Except String String) (pieces : List FmtPiece)
    (hpos : ∃ p ∈ pieces, isPositionalPiece p)
    (hnames : ∀ name, FmtPiece.nextArgument (.argumentNamed name) ∈ pieces →
      ∃ i, parseIdent name = .ok i) :
    ∃ rest, get_parameter_names parseIdent pieces =
      .error ("expected named parameter" ++ rest) := by
  induction pieces with
  | nil =>
    obtain ⟨p, hp, _⟩ := hpos
    cases hp
  | cons head tail ih =>
    cases head with
    | str s =>
      have hpos' : ∃ p ∈ tail, isPositionalPiece p := by
        obtain ⟨p, hp, hq⟩ := hpos
        rcases List.mem_cons.mp hp with h1 | h1
        · subst h1; rcases hq with hq | ⟨n, hq⟩ <;> simp at hq
        · exact ⟨p, h1, hq⟩
      obtain ⟨rest, hr⟩ :=
        ih hpos' fun name hn => hnames name (List.mem_cons_of_mem _ hn)
      exact ⟨rest, by simp [get_parameter_names, hr]⟩
    | nextArgument pos =>
      cases pos with
      | argumentNext => exact ⟨" but found `\x7b\x7d`", rfl⟩
      | argumentIs n => exact ⟨s!" but found `\x7b{n}\x7d`", rfl⟩
      | argumentNamed name =>
        obtain ⟨i, hi⟩ := hnames name (List.mem_cons_self _ _)
        have hpos' : ∃ p ∈ tail, isPositionalPiece p := by
          obtain ⟨p, hp, hq⟩ := hpos
          rcases List.mem_cons.mp hp with h1 | h1
          · subst h1; rcases hq with hq | ⟨n, hq⟩ <;> simp at hq
          · exact ⟨p, h1, hq⟩
        obtain ⟨rest, hr⟩ :=
          ih hpos' fun nm hn => hnames nm (List.mem_cons_of_mem _ hn)
        exact ⟨rest, by simp [get_parameter_names, hi, hr]⟩

/-- With a named placeholder somewhere in the template,
`get_parameter_positions` fails with an "expected positional parameter"
message (the first offending placeholder it hits — a named one or a bare
`\x7b\x7d` — carries the same phrase). -/
theorem get_parameter_positions_named_err (pieces : List FmtPiece)
    (hnamed : ∃ p ∈ pieces, isNamedPiece p) :
    ∃ rest, get_parameter_positions pieces =
      .error ("expected positional parameter" ++ rest) := by
  induction pieces with
  | nil =>
    obtain ⟨p, hp, _⟩ := hnamed
    cases hp
  | cons head tail ih =>
    cases head with
    | str s =>
      have hnamed' : ∃ p ∈ tail, isNamedPiece p := by
        obtain ⟨p, hp, hq⟩ := hnamed
        rcases List.mem_cons.mp hp with h1 | h1
        · subst h1; obtain ⟨nm, hq⟩ := hq; simp at hq
        · exact ⟨p, h1, hq⟩
      obtain ⟨rest, hr⟩ := ih hnamed'
      exact ⟨rest, by simp [get_parameter_positions, hr]⟩
    | nextArgument pos =>
      cases pos with
      | argumentNext => exact ⟨" but found `\x7b\x7d`", rfl⟩
      | argumentIs n =>
        have hnamed' : ∃ p ∈ tail, isNamedPiece p := by
          obtain ⟨p, hp, hq⟩ := hnamed
          rcases List.mem_cons.mp hp with h1 | h1
          · subst h1; obtain ⟨nm, hq⟩ := hq; simp at hq
          · exact ⟨p, h1, hq⟩
        obtain ⟨rest, hr⟩ := ih hnamed'
        exact ⟨rest, by simp [get_parameter_positions, hr]⟩
      | argumentNamed name => exact ⟨s!" but found `\x7b{name}\x7d`", rfl⟩

/-- With any placeholder somewhere in the template, `ensure_no_parameters`
fails with an "expected no parameters" message. -/
theorem ensure_no_parameters_err (pieces : List FmtPiece)
    (hph : ∃ p ∈ pieces, isPlaceholderPiece p) :
    ∃ rest, ensure_no_parameters pieces =
      .error ("expected no parameters" ++ rest) := by
  induction pieces with
  | nil =>
    obtain ⟨p, hp, _⟩ := hph
    cases hp
  | cons head tail ih =>
    cases head with
    | str s =>
      have hph' : ∃ p ∈ tail, isPlaceholderPiece p := by
        obtain ⟨p, hp, hq⟩ := hph
        rcases List.mem_cons.mp hp with h1 | h1
        · subst h1; obtain ⟨pos, hq⟩ := hq; simp at hq
        · exact ⟨p, h1, hq⟩
      obtain ⟨rest, hr⟩ := ih hph'
      exact ⟨rest, by simp [ensure_no_parameters, hr]⟩
    | nextArgument pos =>
      cases pos with
      | argumentNext => exact ⟨" but found `\x7b\x7d`", rfl⟩
      | argumentIs n => exact ⟨s!" but found `\x7b{n}\x7d`", rfl⟩
      | argumentNamed name => exact ⟨s!" but found `\x7b{name}\x7d`", rfl⟩

/-- Claim C3: within the `const("literal")` shorthand of a description or
display override, a named-field variant whose template contains a positional
placeholder (with its named placeholders parsable as identifiers) aborts
expansion with a message containing "expected named parameter"; a
positional-field variant whose template contains a named placeholder aborts
with "expected positional parameter"; and a unit variant whose template
contains any placeholder aborts with "expected no parameters". -/
theorem c3_const_format_placeholder_validation :
    ∀ (parseIdent : String → Except String String) (attr ident fs : String)
      (pieces : List FmtPiece),
      (∀ (namedFields : List (String × SynType)),
        (∃ p ∈ pieces, isPositionalPiece p) →
        (∀ name, FmtPiece.nextArgument (.argumentNamed name) ∈ pieces →
          ∃ i, parseIdent name = .ok i) →
        ∃ rest,
          customFormatterFromFormatString parseIdent attr ident (.named namedFields)
              fs pieces =
            .error (formatterAbortMsg attr ident ("expected named parameter" ++ rest))) ∧
      (∀ (tys : List SynType),
        (∃ p ∈ pieces, isNamedPiece p) →
        ∃ rest,
          customFormatterFromFormatString parseIdent attr ident (.unnamed tys)
              fs pieces =
            .error (formatterAbortMsg attr ident
              ("expected positional parameter" ++ rest))) ∧
      ((∃ p ∈ pieces, isPlaceholderPiece p) →
        ∃ rest,
          customFormatterFromFormatString parseIdent attr ident .unit fs pieces =
            .error (formatterAbortMsg attr ident ("expected no parameters" ++ rest))) := by
  intro parseIdent attr ident fs pieces
  refine ⟨?_, ?_, ?_⟩
  · intro namedFields hpos hnames
    obtain ⟨rest, hr⟩ := get_parameter_names_positional_err parseIdent pieces hpos hnames
    exact ⟨rest, by simp [customFormatterFromFormatString, hr]⟩
  · intro tys hnamed
    obtain ⟨rest, hr⟩ := get_parameter_positions_named_err pieces hnamed
    exact ⟨rest, by simp [customFormatterFromFormatString, hr]⟩
  · intro hph
    obtain ⟨rest, hr⟩ := ensure_no_parameters_err pieces hph
    exact ⟨rest, by simp [customFormatterFromFormatString, hr]⟩

/-- Witness for C3 at concrete inputs: a `\x7b0\x7d` placeholder on a
named-field variant, a `\x7bcode\x7d` placeholder on a tuple variant, and a
`\x7b\x7d` placeholder on a unit variant each abort expansion with the
corresponding message. -/
theorem c3_const_format_placeholder_validation_witness :
    (∃ rest, customFormatterFromFormatString (fun s => .ok s) "display" "HttpStatus"
        (.named [("code", .other "u32")]) "status \x7b0\x7d"
        [.str "status ", .nextArgument (.argumentIs 0)] =
      .error (formatterAbortMsg "display" "HttpStatus"
        ("expected named parameter" ++ rest))) ∧
    (∃ rest, customFormatterFromFormatString (fun s => .ok s) "display" "HttpStatus"
        (.unnamed [.other "u32"]) "status \x7bcode\x7d"
        [.str "status ", .nextArgument (.argumentNamed "code")] =
      .error (formatterAbortMsg "display" "HttpStatus"
        ("expected positional parameter" ++ rest))) ∧
    (∃ rest, customFormatterFromFormatString (fun s => .ok s) "description" "Down"
        .unit "down \x7b\x7d" [.str "down ", .nextArgument .argumentNext] =
      .error (formatterAbortMsg "description" "Down"
        ("expected no parameters" ++ rest))) := by
  refine ⟨?_, ?_, ?_⟩
  · exact (c3_const_format_placeholder_validation (fun s => .ok s) "display" "HttpStatus"
      "status \x7b0\x7d" [.str "status ", .nextArgument (.argumentIs 0)]).1
      [("code", .other "u32")]
      ⟨.nextArgument (.argumentIs 0), by simp, Or.inr ⟨0, rfl⟩⟩
      (by intro name hn; simp [isNamedPiece] at hn)
  · exact (c3_const_format_placeholder_validation (fun s => .ok s) "display" "HttpStatus"
      "status \x7bcode\x7d" [.str "status ", .nextArgument (.argumentNamed "code")]).2.1
      [.other "u32"]
      ⟨.nextArgument (.argumentNamed "code"), by simp, ⟨"code", rfl⟩⟩
  · exact (c3_const_format_placeholder_validation (fun s => .ok s) "description" "Down"
      "down \x7b\x7d" [.str "down ", .nextArgument .argumentNext]).2.2
      ⟨.nextArgument .argumentNext, by simp, ⟨.argumentNext, rfl⟩⟩
